import Mathlib

/-!
Verification of the proxy-rotation-and-retry scraping engine of the
Youtube-Scraper repository.  The Python sources `proxy_manager.py` and
`youtube_scraper.py` are shallowly embedded: Python strings become `List Char`,
the `ProxyManager` object state becomes an explicit record threaded through the
operations, the `random.choice` call and the file system and network are
modelled as oracle inputs, and exceptions become `Except` values or explicit
result constructors.
-/

set_option maxRecDepth 10000

/-- Python strings are modelled as lists of characters (Python `len` counts
characters, as does `List.length`). -/
abbrev PyStr := List Char

/-- Substring test, Python `needle in hay` for strings. -/
def isSub (needle hay : PyStr) : Bool :=
  hay.tails.any (fun t => needle.isPrefixOf t)

/-- Python `str.split(c)` for a single-character separator: splits at every
occurrence, keeping empty pieces, and yields `[s]` when the separator is
absent. -/
def splitOnChar (c : Char) : PyStr → List PyStr
  | [] => [[]]
  | x :: xs =>
    let r := splitOnChar c xs
    if x = c then [] :: r
    else (x :: r.headD []) :: r.tail

/-- Python `str.strip()`: drop whitespace from both ends. -/
def pyStrip (s : PyStr) : PyStr :=
  ((s.dropWhile Char.isWhitespace).reverse.dropWhile Char.isWhitespace).reverse

/-- Fuelled worker for `pyReplace`. -/
def pyReplaceAux (pat rep : PyStr) : Nat → PyStr → PyStr
  | 0, s => s
  | _ + 1, [] => []
  | fuel + 1, c :: cs =>
    if pat.isPrefixOf (c :: cs) && !pat.isEmpty then
      rep ++ pyReplaceAux pat rep fuel (cs.drop (pat.length - 1))
    else
      c :: pyReplaceAux pat rep fuel cs

/-- Python `str.replace(pat, rep)`: replace every (non-overlapping, leftmost)
occurrence.  The fuel argument of the worker is the length of the string, which
bounds the number of steps. -/
def pyReplace (pat rep s : PyStr) : PyStr :=
  pyReplaceAux pat rep s.length s

/-- The wire scheme `http://` prepended by `format_proxy_url` and stripped
again by the failure bookkeeping. -/
def httpScheme : PyStr := "http://".data

/-- Association-list lookup for the Python dict `self.proxy_failures`
(first matching key wins; real dicts have unique keys). -/
def dget? : List (PyStr × Nat) → PyStr → Option Nat
  | [], _ => none
  | (k1, v) :: rest, k => if k1 = k then some v else dget? rest k

/-- Python `dict.get(k, d)`. -/
def dgetD (d : List (PyStr × Nat)) (k : PyStr) (dflt : Nat) : Nat :=
  (dget? d k).getD dflt

/-- Python `dict[k] = v`: update in place if present, else append. -/
def dset : List (PyStr × Nat) → PyStr → Nat → List (PyStr × Nat)
  | [], k, v => [(k, v)]
  | (k1, v1) :: rest, k, v =>
    if k1 = k then (k1, v) :: rest else (k1, v1) :: dset rest k v

/-- Python `del dict[k]` (the key is checked to be present before deletion in
the source, so deleting the first occurrence models it). -/
def ddel : List (PyStr × Nat) → PyStr → List (PyStr × Nat)
  | [], _ => []
  | (k1, v1) :: rest, k =>
    if k1 = k then rest else (k1, v1) :: ddel rest k

/-- The keys of the failure table are distinct, as in every Python dict. -/
def NodupKeys (d : List (PyStr × Nat)) : Prop :=
  (d.map Prod.fst).Nodup

instance : DecidablePred NodupKeys := fun d =>
  inferInstanceAs (Decidable (d.map Prod.fst).Nodup)

/-- The mutable state of a `ProxyManager` instance: `self.proxy_failures` and
`self.current_proxies` (the constants `self.max_failures = 5` and the proxies
file name are modelled separately). -/
structure PMState where
  proxy_failures : List (PyStr × Nat)
  current_proxies : List PyStr
deriving DecidableEq, Repr

/-- `ProxyManager.__init__`: empty failure table, empty proxy list. -/
def pmInit : PMState := ⟨[], []⟩

/-- `self.max_failures`. -/
def max_failures : Nat := 5

/-- `ProxyManager` errors.  The source has a single `ProxyError` class carrying
a message; the two messages that occur are distinguished here. -/
inductive ProxyError where
  | noProxiesAvailable
  | invalidProxyFormat (line : PyStr)
deriving DecidableEq, Repr

/-- `ProxyManager.load_proxies`.  The proxies file is an oracle input:
`none` models a missing file (early return, `self.current_proxies` untouched),
`some lines` models its lines (without trailing newlines).  A line is kept when
its stripped form is non-empty and the raw line does not start with a `#`;
kept lines are stripped. -/
def load_proxies (s : PMState) (file : Option (List PyStr)) :
    List PyStr × PMState :=
  match file with
  | none => ([], s)
  | some lines =>
    let proxies :=
      (lines.filter (fun l => !(pyStrip l).isEmpty && !(l.head? == some '#'))).map pyStrip
    (proxies, { s with current_proxies := proxies })

/-- `ProxyManager.format_proxy_url`: a line containing `@` is passed through
with the scheme prepended; otherwise the line is split on `:` and the
four-field and two-field forms are accepted; anything else raises
`ProxyError`. -/
def format_proxy_url (proxy_line : PyStr) : Except ProxyError PyStr :=
  if '@' ∈ proxy_line then .ok (httpScheme ++ proxy_line)
  else
    match splitOnChar ':' proxy_line with
    | [ip, port, username, password] =>
      .ok (httpScheme ++ username ++ [':'] ++ password ++ ['@'] ++ ip ++ [':'] ++ port)
    | [ip, port] => .ok (httpScheme ++ ip ++ [':'] ++ port)
    | _ => .error (.invalidProxyFormat proxy_line)

/-- The host fragment that `record_failure` and `clear_failures` extract from a
credentialed wire URL: `proxy_url.split('@')[1].split(':')[0]`. -/
def extract_host (proxy_url : PyStr) : PyStr :=
  (splitOnChar ':' ((splitOnChar '@' proxy_url).getD 1 [])).headD []

/-- The storage key that `record_failure` and `clear_failures` derive from a
wire-form URL: for a URL containing `@`, the host fragment is looked up as a
substring of the currently loaded raw records (first match wins), falling back
to the bare host fragment; otherwise the `http://` scheme is stripped. -/
def derive_key (current : List PyStr) (proxy_url : PyStr) : PyStr :=
  if '@' ∈ proxy_url then
    let host := extract_host proxy_url
    match current.find? (fun p => isSub host p) with
    | some p => p
    | none => host
  else pyReplace httpScheme [] proxy_url

/-- `ProxyManager.record_failure`: increment the failure count stored under the
derived key (entries are created lazily with `dict.get(k, 0) + 1`). -/
def record_failure (s : PMState) (proxy_url : PyStr) : PMState :=
  let key := derive_key s.current_proxies proxy_url
  { s with proxy_failures := dset s.proxy_failures key (dgetD s.proxy_failures key 0 + 1) }

/-- `ProxyManager.clear_failures`: delete the derived key's entry when present,
otherwise do nothing. -/
def clear_failures (s : PMState) (proxy_url : PyStr) : PMState :=
  let key := derive_key s.current_proxies proxy_url
  if (dget? s.proxy_failures key).isSome then
    { s with proxy_failures := ddel s.proxy_failures key }
  else s

/-- A proxy record's current failure count, `self.proxy_failures.get(p, 0)`. -/
def failCount (s : PMState) (p : PyStr) : Nat :=
  dgetD s.proxy_failures p 0

/-- Positional list access used to model `random.choice(l)`: the oracle index
is reduced modulo the length, so every element can be chosen and the access is
total. -/
def nthD : List PyStr → Nat → PyStr
  | [], _ => []
  | x :: _, 0 => x
  | _ :: xs, n + 1 => nthD xs n

/-- The selection part of `ProxyManager.get_proxy`: reload the proxy list,
raise on an empty pool, filter out records at or above the failure ceiling,
wipe the whole failure table when nothing survives the filter (soft reset), and
pick the record `random.choice` designates (modelled by the oracle index
`pick`). -/
def select_proxy (s : PMState) (file : Option (List PyStr)) (pick : Nat) :
    Except ProxyError PyStr × PMState :=
  let ls := load_proxies s file
  let proxies := ls.1
  let s1 := ls.2
  if proxies.isEmpty then (.error .noProxiesAvailable, s1)
  else
    let working := proxies.filter (fun p => dgetD s1.proxy_failures p 0 < max_failures)
    if working.isEmpty then
      (.ok (nthD proxies (pick % proxies.length)), { s1 with proxy_failures := [] })
    else
      (.ok (nthD working (pick % working.length)), s1)

/-- `ProxyManager.get_proxy`: the selected raw record is formatted to its wire
form; a formatting error propagates (with the state mutations already
performed). -/
def get_proxy (s : PMState) (file : Option (List PyStr)) (pick : Nat) :
    Except ProxyError PyStr × PMState :=
  match select_proxy s file pick with
  | (.error e, s1) => (.error e, s1)
  | (.ok p, s1) => (format_proxy_url p, s1)

/-- `ProxyManager.list_proxies`: reload the proxy list and report each record
with its failure count and a status string. -/
def list_proxies (s : PMState) (file : Option (List PyStr)) :
    List (PyStr × Nat × PyStr) × PMState :=
  let ls := load_proxies s file
  let proxies := ls.1
  let s1 := ls.2
  (proxies.map (fun p =>
      (p, dgetD s1.proxy_failures p 0,
        if dgetD s1.proxy_failures p 0 ≥ max_failures then "banned".data
        else "active".data)),
    s1)

/-- Python values produced by `json.loads`, as far as the extractor's walk can
observe them. -/
inductive PyVal where
  | null
  | bool (b : Bool)
  | num (n : Int)
  | str (s : PyStr)
  | arr (xs : List PyVal)
  | obj (kvs : List (PyStr × PyVal))

/-- The Python exceptions the strategy-2 walk can raise.  `keyError` and
`typeError` are caught by the source's `except` clause (together with
`json.JSONDecodeError`); `attrError` (an `AttributeError`) is not. -/
inductive PyExc where
  | attrError
  | keyError
  | typeError
deriving DecidableEq, Repr

/-- Python `v.get(k, d)`: only dicts have a `get` attribute; every other value
raises `AttributeError`. -/
def pyGetD (v : PyVal) (k : PyStr) (d : PyVal) : Except PyExc PyVal :=
  match v with
  | .obj kvs =>
    .ok ((( kvs.find? (fun kv => kv.1 = k)).map Prod.snd).getD d)
  | _ => .error .attrError

/-- Python iteration `for x in v`: lists yield their elements, dicts their
keys, strings their one-character substrings; other values raise
`TypeError`. -/
def pyIter : PyVal → Except PyExc (List PyVal)
  | .arr xs => .ok xs
  | .obj kvs => .ok (kvs.map (fun kv => .str kv.1))
  | .str s => .ok (s.map (fun c => .str [c]))
  | _ => .error .typeError

/-- Python `k in v` for a string `k`: key test on dicts, membership on lists
(string equality only can match), substring test on strings; other values
raise `TypeError`. -/
def pyContainsKey (v : PyVal) (k : PyStr) : Except PyExc Bool :=
  match v with
  | .obj kvs => .ok (kvs.any (fun kv => kv.1 = k))
  | .arr xs => .ok (xs.any (fun x => match x with | .str s => s = k | _ => false))
  | .str s => .ok (isSub k s)
  | _ => .error .typeError

/-- Python `v[k]` for a string `k`: dict lookup (raising `KeyError` when
absent); lists and strings raise `TypeError` for a string index; other values
are not subscriptable (`TypeError`). -/
def pyIndex (v : PyVal) (k : PyStr) : Except PyExc PyVal :=
  match v with
  | .obj kvs =>
    match kvs.find? (fun kv => kv.1 = k) with
    | some kv => .ok kv.2
    | none => .error .keyError
  | _ => .error .typeError

/-- The inner loop of extraction strategy 2: scan the items of one
`itemSectionRenderer` for the first one carrying a `videoRenderer` key and
return its `videoId` value. -/
def walkItems : List PyVal → Except PyExc (Option PyVal)
  | [] => .ok none
  | item :: rest => do
    let b ← pyContainsKey item "videoRenderer".data
    if b then
      let r1 ← pyIndex item "videoRenderer".data
      let r2 ← pyIndex r1 "videoId".data
      return some r2
    else walkItems rest

/-- The outer loop of extraction strategy 2 over
`sectionListRenderer.contents`. -/
def walkContents : List PyVal → Except PyExc (Option PyVal)
  | [] => .ok none
  | content :: rest => do
    let g1 ← pyGetD content "itemSectionRenderer".data (.obj [])
    let itemsV ← pyGetD g1 "contents".data (.arr [])
    let items ← pyIter itemsV
    match ← walkItems items with
    | some v => return some v
    | none => walkContents rest

/-- Extraction strategy 2's fixed nested-key walk over the parsed
`ytInitialData` value, as in the source:
`data.get('contents', \x7b\x7d).get('twoColumnSearchResultsRenderer', ...)`
down to the per-item `videoRenderer` / `videoId` lookups. -/
def walkYtInitialData (data : PyVal) : Except PyExc (Option PyVal) := do
  let c1 ← pyGetD data "contents".data (.obj [])
  let c2 ← pyGetD c1 "twoColumnSearchResultsRenderer".data (.obj [])
  let c3 ← pyGetD c2 "primaryContents".data (.obj [])
  let c4 ← pyGetD c3 "sectionListRenderer".data (.obj [])
  let contentsV ← pyGetD c4 "contents".data (.arr [])
  let contents ← pyIter contentsV
  walkContents contents

/-- The literal part of the strategy-1 regex, the text
`"videoRenderer":\x7b"videoId":"` (braces written as hex escapes). -/
def vrPattern : PyStr := "\"videoRenderer\":\x7b\"videoId\":\"".data

/-- One attempted regex match of `pre` followed by `([^stop]+)stop` at the
current position: the literal prefix must match, the capture is the maximal
run of non-`stop` characters, must be non-empty, and must be terminated by an
occurrence of `stop`. -/
def tryCaptureClosed (pre : PyStr) (stop : Char) (s : PyStr) : Option PyStr :=
  if pre.isPrefixOf s then
    let rest := s.drop pre.length
    let cap := rest.takeWhile (fun c => c ≠ stop)
    if cap.length ≠ 0 && cap.length < rest.length then some cap else none
  else none

/-- `re.search` for the pattern `pre([^stop]+)stop`: try every start position
from the left and return the first successful capture.  This models the
strategy-1 search with `pre = vrPattern` and `stop = '"'`. -/
def reSearchClosed (pre : PyStr) (stop : Char) : PyStr → Option PyStr
  | [] => none
  | c :: cs =>
    match tryCaptureClosed pre stop (c :: cs) with
    | some cap => some cap
    | none => reSearchClosed pre stop cs

/-- The literal part of the strategy-3 regex, `/watch?v=`. -/
def watchPre : PyStr := "/watch?v=".data

/-- One attempted match of `/watch\?v=([^&]+)` at the current position: the
literal prefix must match and the capture is the maximal non-empty run of
non-`&` characters (no closing character required). -/
def tryCaptureOpen (pre : PyStr) (stop : Char) (s : PyStr) : Option PyStr :=
  if pre.isPrefixOf s then
    let cap := (s.drop pre.length).takeWhile (fun c => c ≠ stop)
    if cap.isEmpty then none else some cap
  else none

/-- `re.search` for `pre([^stop]+)` without a closing requirement, used for
the strategy-3 href pattern. -/
def reSearchOpen (pre : PyStr) (stop : Char) : PyStr → Option PyStr
  | [] => none
  | c :: cs =>
    match tryCaptureOpen pre stop (c :: cs) with
    | some cap => some cap
    | none => reSearchOpen pre stop cs

/-- Extraction strategy 3: scan the anchor hrefs in document order and return
the first capture of `/watch\?v=([^&]+)`. -/
def strategy3 : List PyStr → Option PyStr
  | [] => none
  | href :: rest =>
    match reSearchOpen watchPre '&' href with
    | some cap => some cap
    | none => strategy3 rest

/-- A response body as the extractor sees it.  `text` is the raw markup, on
which the strategy-1 regex runs.  `ytInitialData` models the outcome of the
strategy-2 library calls `re.search(r'var ytInitialData = (...);</script>',
html, re.DOTALL)` followed by `json.loads`: `none` when the regex finds no
match, `some none` when the matched blob fails to parse
(`json.JSONDecodeError`, caught), and `some (some v)` for the parsed value.
`anchors` models the BeautifulSoup scan `soup.find_all('a', href=True)`: the
href attribute of every anchor, in document order.  The regex engine, the JSON
parser and the HTML parser are external libraries, so their outcomes are
oracle fields; all logic of `_extract_video_id` itself is computed. -/
structure Markup where
  text : PyStr
  ytInitialData : Option (Option PyVal)
  anchors : List PyStr

/-- Result of `YouTubeScraper._extract_video_id`: a found identifier (any
Python value, as the source performs no type check), the `VideoNotFoundError`
raised after all three strategies fail, or an uncaught `AttributeError`
escaping from the strategy-2 walk. -/
inductive ExtractResult where
  | found (v : PyVal)
  | notFoundErr
  | attrErrorEscape

/-- Extraction strategy 2 including its guards: nothing to do when the regex
found no match or the JSON failed to parse. -/
def strategy2 (yt : Option (Option PyVal)) : Except PyExc (Option PyVal) :=
  match yt with
  | some (some data) => walkYtInitialData data
  | _ => .ok none

/-- Shared tail of `_extract_video_id`: fall through to strategy 3 and raise
`VideoNotFoundError` when it also finds nothing. -/
def fallback3 (anchors : List PyStr) : ExtractResult :=
  match strategy3 anchors with
  | some cap => .found (.str cap)
  | none => .notFoundErr

/-- `YouTubeScraper._extract_video_id`: strategy 1 (direct regex), then
strategy 2 (ytInitialData walk, its `KeyError` / `TypeError` / parse failures
caught and falling through, an `AttributeError` escaping), then strategy 3
(anchor scan), then `VideoNotFoundError`. -/
def extract_video_id (m : Markup) : ExtractResult :=
  match reSearchClosed vrPattern '\"' m.text with
  | some vid => .found (.str vid)
  | none =>
    match strategy2 m.ytInitialData with
    | .ok (some v) => .found v
    | .error .attrError => .attrErrorEscape
    | .ok none => fallback3 m.anchors
    | .error .keyError => fallback3 m.anchors
    | .error .typeError => fallback3 m.anchors



/-- The per-attempt errors caught by the retry loop's `except` clause:
`YouTubeScraperError` from a failed request, `YouTubeScraperError` from the
short-response check, and `VideoNotFoundError` from extraction. -/
inductive AttErr where
  | requestFailed
  | responseTooShort
  | videoNotFound
deriving DecidableEq, Repr

/-- The network's behaviour for one attempt, an oracle input: either the
`requests` call raises a `RequestException` (connection error, timeout, SSL
failure, ...), or a response arrives with a status code and a body described
by a `Markup`. -/
inductive FetchOutcome where
  | netErr
  | response (status : Nat) (m : Markup)

/-- `YouTubeScraper._make_request`: a raised `RequestException` is re-raised
as `YouTubeScraperError`; `raise_for_status` raises for status codes in
[400, 600) (also re-raised); a body shorter than 1000 characters raises the
short-response `YouTubeScraperError`; otherwise the body is returned. -/
def make_request (f : FetchOutcome) : Except AttErr Markup :=
  match f with
  | .netErr => .error .requestFailed
  | .response status m =>
    if 400 ≤ status ∧ status < 600 then .error .requestFailed
    else if m.text.length < 1000 then .error .responseTooShort
    else .ok m

/-- The environment of one iteration of the retry loop: the proxies file
contents at this attempt's `load_proxies` call, the `random.choice` oracle,
and the network's behaviour. -/
structure Attempt where
  file : Option (List PyStr)
  pick : Nat
  fetch : FetchOutcome

/-- Outcome of one iteration of the retry loop body. -/
inductive StepOut where
  | poolErr (e : ProxyError) (s1 : PMState)
  | okStep (url : PyStr) (v : PyVal) (s2 : PMState)
  | failStep (url : PyStr) (e : AttErr) (s2 : PMState)
  | escape (s1 : PMState)

/-- One iteration of the body of `get_first_video_id`'s `while` loop:
`get_proxy` (a `ProxyError` propagates, with the state changes it already
made), `_make_request`, `_extract_video_id`; on success `clear_failures` is
applied, on a caught error `record_failure` is applied, and an uncaught
`AttributeError` from extraction propagates without touching the failure
table. -/
def attempt_step (s : PMState) (a : Attempt) : StepOut :=
  match get_proxy s a.file a.pick with
  | (.error e, s1) => .poolErr e s1
  | (.ok url, s1) =>
    match make_request a.fetch with
    | .error e => .failStep url e (record_failure s1 url)
    | .ok m =>
      match extract_video_id m with
      | .found v => .okStep url v (clear_failures s1 url)
      | .notFoundErr => .failStep url .videoNotFound (record_failure s1 url)
      | .attrErrorEscape => .escape s1

/-- `self.max_attempts` in `get_first_video_id`. -/
def max_attempts : Nat := 10

/-- How one run of `get_first_video_id` ends: a returned identifier, a
`ProxyError` escaping from `get_proxy`, an `AttributeError` escaping from
extraction, or the terminal `YouTubeScraperError` wrapping the last
per-attempt error after exhaustion. -/
inductive SearchOutcome where
  | success (v : PyVal) (url : PyStr)
  | poolError (e : ProxyError)
  | attrEscape
  | maxRetries (last : Option AttErr)

/-- Per-attempt log of a run (ghost observables): which proxy URL was used and
how the attempt ended. -/
inductive AttRec where
  | failed (url : PyStr) (e : AttErr)
  | succeeded (url : PyStr) (v : PyVal)

/-- `true` exactly for a failed attempt record. -/
def isFailedRec : AttRec → Bool
  | .failed _ _ => true
  | .succeeded _ _ => false

/-- Observables of one run of the retry loop: the outcome, the chronological
list of completed attempts, the number of `time.sleep(1)` pauses performed,
and the final `ProxyManager` state. -/
structure RunResult where
  outcome : SearchOutcome
  trace : List AttRec
  sleeps : Nat
  final : PMState

/-- The `while attempts < max_attempts` loop of
`YouTubeScraper.get_first_video_id`, recursing on the remaining attempt budget
`fuel` (initially `max_attempts`).  On a caught error the attempt counter is
incremented, the failure is recorded, and — only if budget remains — a
one-second sleep precedes the next iteration; when the budget is exhausted the
loop falls through to the terminal error wrapping the last seen error. -/
def loopAux (env : Nat → Attempt) : Nat → PMState → Option AttErr → RunResult
  | 0, s, lastErr => ⟨.maxRetries lastErr, [], 0, s⟩
  | fuel + 1, s, _lastErr =>
    match attempt_step s (env 0) with
    | .poolErr e s1 => ⟨.poolError e, [], 0, s1⟩
    | .okStep url v s2 => ⟨.success v url, [.succeeded url v], 0, s2⟩
    | .escape s1 => ⟨.attrEscape, [], 0, s1⟩
    | .failStep url e s2 =>
      if fuel = 0 then ⟨.maxRetries (some e), [.failed url e], 0, s2⟩
      else
        let r := loopAux (fun n => env (n + 1)) fuel s2 (some e)
        ⟨r.outcome, .failed url e :: r.trace, r.sleeps + 1, r.final⟩

/-- `YouTubeScraper.get_first_video_id` for one search term: run the retry
loop with the full budget of 10 attempts against the environment oracle
`env` (attempt `k` sees `env k`). -/
def get_first_video_id (env : Nat → Attempt) (s : PMState) : RunResult :=
  loopAux env max_attempts s none

/-- The `ProxyManager` state carried inside a `StepOut`. -/
def stepState : StepOut → PMState
  | .poolErr _ s1 => s1
  | .okStep _ _ s2 => s2
  | .failStep _ _ s2 => s2
  | .escape s1 => s1

/-- `n` consecutive `record_failure` calls with the same wire URL. -/
def recordN (s : PMState) (url : PyStr) : Nat → PMState
  | 0 => s
  | n + 1 => record_failure (recordN s url n) url

/-- A 999-character response body (concrete input for the length check). -/
def shortMarkup999 : Markup := ⟨List.replicate 999 'a', none, []⟩

/-- A 1000-character response body (concrete input for the length check). -/
def okMarkup1000 : Markup := ⟨List.replicate 1000 'a', none, []⟩

/-- Concrete markup containing the strategy-1 fragment with identifier
`abc123`. -/
def exText1 : PyStr := "xx\"videoRenderer\":\x7b\"videoId\":\"abc123\"\x7d yy".data

/-- Markup whose only content is the strategy-1 fragment. -/
def exMarkup1 : Markup := ⟨exText1, none, []⟩

/-- A parsed `ytInitialData` value whose `contents` key holds a list, so that
the second `.get` of the strategy-2 walk is attempted on a non-dict value. -/
def cexYt : PyVal := .obj [("contents".data, .arr [])]

/-- Markup with no strategy-1 match, the `ytInitialData` value above, and an
anchor that strategy 3 would match. -/
def cexMarkup : Markup :=
  ⟨"no renderer here".data, some (some cexYt), ["/watch?v=xyz789&list=foo".data]⟩

/-- A well-formed two-field proxy line. -/
def goodLine : PyStr := "1.2.3.4:80".data

/-- The wire form of `goodLine`. -/
def goodURL : PyStr := "http://1.2.3.4:80".data

/-- An attempt whose pool holds one good line and whose fetch raises. -/
def attNet : Attempt := ⟨some [goodLine], 0, .netErr⟩

/-- An attempt whose pool holds a single malformed three-field line. -/
def attBadLine : Attempt := ⟨some ["a:b:c".data], 0, .netErr⟩

/-- Environment in which every fetch raises a `RequestException`. -/
def envNet : Nat → Attempt := fun _ => attNet

/-- Environment in which every attempt selects the malformed line. -/
def envBadLine : Nat → Attempt := fun _ => attBadLine


lemma dget?_dset_self (d : List (PyStr × Nat)) (k : PyStr) (v : Nat) :
    dget? (dset d k v) k = some v := by
  induction d with
  | nil => simp [dset, dget?]
  | cons kv rest ih =>
    obtain ⟨k1, v1⟩ := kv
    by_cases h : k1 = k
    · simp [dset, dget?, h]
    · simp [dset, dget?, h, ih]

lemma dget?_dset_ne (d : List (PyStr × Nat)) (k k1 : PyStr) (v : Nat)
    (h : k1 ≠ k) : dget? (dset d k v) k1 = dget? d k1 := by
  induction d with
  | nil =>
    have hne : ¬(k = k1) := fun he => h he.symm
    simp [dset, dget?, hne]
  | cons kv rest ih =>
    obtain ⟨k2, v2⟩ := kv
    by_cases h2 : k2 = k
    · subst h2
      have hne : ¬(k2 = k1) := fun he => h he.symm
      simp [dset, dget?, hne]
    · simp only [dset, if_neg h2, dget?]
      rw [ih]

lemma ddel_sublist (d : List (PyStr × Nat)) (k : PyStr) :
    (ddel d k).Sublist d := by
  induction d with
  | nil => simp [ddel]
  | cons kv rest ih =>
    obtain ⟨k1, v1⟩ := kv
    by_cases h : k1 = k
    · simp only [ddel, if_pos h]
      exact List.sublist_cons_self (k1, v1) rest
    · simp only [ddel, if_neg h]
      exact ih.cons₂ (k1, v1)

lemma dget?_ddel_ne (d : List (PyStr × Nat)) (k k1 : PyStr)
    (h : k1 ≠ k) : dget? (ddel d k) k1 = dget? d k1 := by
  induction d with
  | nil => simp [ddel]
  | cons kv rest ih =>
    obtain ⟨k2, v2⟩ := kv
    by_cases h2 : k2 = k
    · subst h2
      have hne : ¬(k2 = k1) := fun he => h he.symm
      simp [ddel, dget?, hne]
    · simp only [ddel, if_neg h2, dget?]
      by_cases h3 : k2 = k1
      · simp [h3]
      · simp [h3, ih]

lemma dget?_eq_none (d : List (PyStr × Nat)) (k : PyStr)
    (h : k ∉ d.map Prod.fst) : dget? d k = none := by
  induction d with
  | nil => simp [dget?]
  | cons kv rest ih =>
    obtain ⟨k1, v1⟩ := kv
    rw [List.map_cons, List.mem_cons, not_or] at h
    have h1 : ¬(k1 = k) := fun he => h.1 he.symm
    simp [dget?, h1, ih h.2]

lemma dget?_ddel_self (d : List (PyStr × Nat)) (k : PyStr)
    (h : NodupKeys d) : dget? (ddel d k) k = none := by
  induction d with
  | nil => simp [ddel, dget?]
  | cons kv rest ih =>
    obtain ⟨k1, v1⟩ := kv
    unfold NodupKeys at h
    rw [List.map_cons, List.nodup_cons] at h
    by_cases h1 : k1 = k
    · subst h1
      simpa [ddel] using dget?_eq_none rest k1 h.1
    · simp [ddel, dget?, h1, ih h.2]

lemma keys_dset (d : List (PyStr × Nat)) (k : PyStr) (v : Nat) :
    (dset d k v).map Prod.fst = d.map Prod.fst ∨
    ((dset d k v).map Prod.fst = d.map Prod.fst ++ [k] ∧ k ∉ d.map Prod.fst) := by
  induction d with
  | nil => simp [dset]
  | cons kv rest ih =>
    obtain ⟨k1, v1⟩ := kv
    by_cases h : k1 = k
    · simp [dset, h]
    · rcases ih with ih | ⟨ih1, ih2⟩
      · exact Or.inl (by simp [dset, h, ih])
      · refine Or.inr ⟨by simp [dset, h, ih1], ?_⟩
        simp only [List.map_cons, List.mem_cons, not_or]
        exact ⟨fun he => h he.symm, ih2⟩

lemma nodup_dset (d : List (PyStr × Nat)) (k : PyStr) (v : Nat)
    (h : NodupKeys d) : NodupKeys (dset d k v) := by
  rcases keys_dset d k v with hk | ⟨hk, hnot⟩
  · unfold NodupKeys
    rw [hk]
    exact h
  · unfold NodupKeys
    rw [hk]
    refine List.Nodup.append h (List.nodup_singleton k) ?_
    intro a ha hb
    simp at hb
    subst hb
    exact hnot ha

lemma nodup_ddel (d : List (PyStr × Nat)) (k : PyStr)
    (h : NodupKeys d) : NodupKeys (ddel d k) := by
  exact ((ddel_sublist d k).map Prod.fst).nodup h

lemma load_proxies_table (s : PMState) (file : Option (List PyStr)) :
    (load_proxies s file).2.proxy_failures = s.proxy_failures := by
  cases file <;> rfl

lemma record_failure_currents (s : PMState) (url : PyStr) :
    (record_failure s url).current_proxies = s.current_proxies := rfl

lemma clear_failures_currents (s : PMState) (url : PyStr) :
    (clear_failures s url).current_proxies = s.current_proxies := by
  unfold clear_failures
  dsimp only
  split <;> rfl

lemma failCount_record_self (s : PMState) (url : PyStr) :
    failCount (record_failure s url) (derive_key s.current_proxies url) =
      failCount s (derive_key s.current_proxies url) + 1 := by
  simp [failCount, record_failure, dgetD, dget?_dset_self]

lemma failCount_record_other (s : PMState) (url : PyStr) (k : PyStr)
    (h : k ≠ derive_key s.current_proxies url) :
    failCount (record_failure s url) k = failCount s k := by
  simp only [failCount, record_failure, dgetD]
  rw [dget?_dset_ne _ _ _ _ h]

lemma failCount_record_mono (s : PMState) (url : PyStr) (k : PyStr) :
    failCount s k ≤ failCount (record_failure s url) k := by
  by_cases h : k = derive_key s.current_proxies url
  · subst h
    rw [failCount_record_self]
    exact Nat.le_succ _
  · rw [failCount_record_other s url k h]

lemma nodup_record (s : PMState) (url : PyStr)
    (h : NodupKeys s.proxy_failures) :
    NodupKeys (record_failure s url).proxy_failures := by
  simpa [record_failure] using nodup_dset s.proxy_failures _ _ h

lemma nodup_clear (s : PMState) (url : PyStr)
    (h : NodupKeys s.proxy_failures) :
    NodupKeys (clear_failures s url).proxy_failures := by
  unfold clear_failures
  dsimp only
  split
  · simpa using nodup_ddel s.proxy_failures _ h
  · exact h

lemma clear_failures_lookup_none (s : PMState) (url : PyStr)
    (h : NodupKeys s.proxy_failures) :
    dget? (clear_failures s url).proxy_failures
      (derive_key s.current_proxies url) = none := by
  unfold clear_failures
  dsimp only
  split
  · simpa using dget?_ddel_self s.proxy_failures _ h
  · rename_i hns
    exact Option.not_isSome_iff_eq_none.mp hns

lemma failCount_clear_other (s : PMState) (url : PyStr) (k : PyStr)
    (h : derive_key s.current_proxies url ≠ k) :
    failCount (clear_failures s url) k = failCount s k := by
  unfold clear_failures
  dsimp only
  split
  · simp only [failCount, dgetD]
    rw [dget?_ddel_ne _ _ _ (fun he => h he.symm)]
  · rfl

lemma recordN_currents (s : PMState) (url : PyStr) (n : Nat) :
    (recordN s url n).current_proxies = s.current_proxies := by
  induction n with
  | zero => rfl
  | succ n ih => simpa [recordN, record_failure_currents] using ih

lemma failCount_recordN (s : PMState) (url : PyStr) (n : Nat) :
    failCount (recordN s url n) (derive_key s.current_proxies url) =
      failCount s (derive_key s.current_proxies url) + n := by
  induction n with
  | zero => rfl
  | succ n ih =>
    have hc : derive_key (recordN s url n).current_proxies url =
        derive_key s.current_proxies url := by rw [recordN_currents]
    calc failCount (recordN s url (n + 1)) (derive_key s.current_proxies url)
        = failCount (record_failure (recordN s url n) url)
            (derive_key (recordN s url n).current_proxies url) := by rw [hc]; rfl
      _ = failCount (recordN s url n)
            (derive_key (recordN s url n).current_proxies url) + 1 :=
          failCount_record_self _ _
      _ = failCount s (derive_key s.current_proxies url) + n + 1 := by rw [hc, ih]

lemma nodup_recordN (s : PMState) (url : PyStr) (n : Nat)
    (h : NodupKeys s.proxy_failures) :
    NodupKeys (recordN s url n).proxy_failures := by
  induction n with
  | zero => exact h
  | succ n ih => exact nodup_record _ _ ih

lemma select_proxy_table (s : PMState) (file : Option (List PyStr)) (pick : Nat) :
    (select_proxy s file pick).2.proxy_failures = s.proxy_failures ∨
    (select_proxy s file pick).2.proxy_failures = [] := by
  have hl := load_proxies_table s file
  unfold select_proxy
  dsimp only
  split
  · exact Or.inl hl
  · split
    · exact Or.inr rfl
    · exact Or.inl hl

lemma get_proxy_table (s : PMState) (file : Option (List PyStr)) (pick : Nat) :
    (get_proxy s file pick).2.proxy_failures = s.proxy_failures ∨
    (get_proxy s file pick).2.proxy_failures = [] := by
  have h := select_proxy_table s file pick
  unfold get_proxy
  rcases hsp : select_proxy s file pick with ⟨e1, s1⟩
  rw [hsp] at h
  cases e1 <;> simpa using h

lemma nodup_get_proxy (s : PMState) (file : Option (List PyStr)) (pick : Nat)
    (h : NodupKeys s.proxy_failures) :
    NodupKeys (get_proxy s file pick).2.proxy_failures := by
  rcases get_proxy_table s file pick with ht | ht
  · rwa [ht]
  · rw [ht]
    simp [NodupKeys]

lemma attempt_step_poolErr_inv (s : PMState) (a : Attempt) (e : ProxyError)
    (s1 : PMState) (h : attempt_step s a = .poolErr e s1) :
    get_proxy s a.file a.pick = (.error e, s1) := by
  unfold attempt_step at h
  rcases hgp : get_proxy s a.file a.pick with ⟨e1, s3⟩
  rw [hgp] at h
  cases e1 with
  | error e2 =>
    simp only [StepOut.poolErr.injEq] at h
    rw [h.1, h.2]
  | ok url1 =>
    cases hmr : make_request a.fetch with
    | error e2 =>
      rw [hmr] at h
      exact (StepOut.noConfusion h)
    | ok m =>
      rw [hmr] at h
      dsimp only at h
      cases hex : extract_video_id m with
      | found v =>
        rw [hex] at h
        exact (StepOut.noConfusion h)
      | notFoundErr =>
        rw [hex] at h
        exact (StepOut.noConfusion h)
      | attrErrorEscape =>
        rw [hex] at h
        exact (StepOut.noConfusion h)

lemma attempt_step_escape_inv (s : PMState) (a : Attempt)
    (s1 : PMState) (h : attempt_step s a = .escape s1) :
    ∃ url, get_proxy s a.file a.pick = (.ok url, s1) := by
  unfold attempt_step at h
  rcases hgp : get_proxy s a.file a.pick with ⟨e1, s3⟩
  rw [hgp] at h
  cases e1 with
  | error e2 => exact (StepOut.noConfusion h)
  | ok url1 =>
    cases hmr : make_request a.fetch with
    | error e2 =>
      rw [hmr] at h
      exact (StepOut.noConfusion h)
    | ok m =>
      rw [hmr] at h
      dsimp only at h
      cases hex : extract_video_id m with
      | found v =>
        rw [hex] at h
        exact (StepOut.noConfusion h)
      | notFoundErr =>
        rw [hex] at h
        exact (StepOut.noConfusion h)
      | attrErrorEscape =>
        rw [hex] at h
        simp only [StepOut.escape.injEq] at h
        exact ⟨url1, by rw [h]⟩

lemma attempt_step_fail_inv (s : PMState) (a : Attempt) (url : PyStr)
    (e : AttErr) (s2 : PMState) (h : attempt_step s a = .failStep url e s2) :
    ∃ s1, get_proxy s a.file a.pick = (.ok url, s1) ∧
      s2 = record_failure s1 url := by
  unfold attempt_step at h
  rcases hgp : get_proxy s a.file a.pick with ⟨e1, s1⟩
  rw [hgp] at h
  cases e1 with
  | error e2 => exact (StepOut.noConfusion h)
  | ok url1 =>
    dsimp only at h
    cases hmr : make_request a.fetch with
    | error e2 =>
      rw [hmr] at h
      dsimp only at h
      simp only [StepOut.failStep.injEq] at h
      obtain ⟨h1, h2, h3⟩ := h
      subst h1
      exact ⟨s1, rfl, h3.symm⟩
    | ok m =>
      rw [hmr] at h
      dsimp only at h
      cases hex : extract_video_id m with
      | found v =>
        rw [hex] at h
        exact (StepOut.noConfusion h)
      | notFoundErr =>
        rw [hex] at h
        simp only [StepOut.failStep.injEq] at h
        obtain ⟨h1, h2, h3⟩ := h
        subst h1
        exact ⟨s1, rfl, h3.symm⟩
      | attrErrorEscape =>
        rw [hex] at h
        exact (StepOut.noConfusion h)

lemma attempt_step_ok_inv (s : PMState) (a : Attempt) (url : PyStr)
    (v : PyVal) (s2 : PMState) (h : attempt_step s a = .okStep url v s2) :
    ∃ s1, get_proxy s a.file a.pick = (.ok url, s1) ∧
      s2 = clear_failures s1 url := by
  unfold attempt_step at h
  rcases hgp : get_proxy s a.file a.pick with ⟨e1, s1⟩
  rw [hgp] at h
  cases e1 with
  | error e2 => exact (StepOut.noConfusion h)
  | ok url1 =>
    dsimp only at h
    cases hmr : make_request a.fetch with
    | error e2 =>
      rw [hmr] at h
      dsimp only at h
      exact (StepOut.noConfusion h)
    | ok m =>
      rw [hmr] at h
      dsimp only at h
      cases hex : extract_video_id m with
      | found v1 =>
        rw [hex] at h
        simp only [StepOut.okStep.injEq] at h
        obtain ⟨h1, h2, h3⟩ := h
        subst h1
        exact ⟨s1, rfl, h3.symm⟩
      | notFoundErr =>
        rw [hex] at h
        exact (StepOut.noConfusion h)
      | attrErrorEscape =>
        rw [hex] at h
        exact (StepOut.noConfusion h)

lemma attempt_step_ok_lookup (s : PMState) (a : Attempt) (url : PyStr)
    (v : PyVal) (s2 : PMState) (h0 : NodupKeys s.proxy_failures)
    (h : attempt_step s a = .okStep url v s2) :
    dget? s2.proxy_failures (derive_key s2.current_proxies url) = none := by
  obtain ⟨s1, hgp, hs2⟩ := attempt_step_ok_inv s a url v s2 h
  have h1 : NodupKeys s1.proxy_failures := by
    have h2 := nodup_get_proxy s a.file a.pick h0
    rwa [hgp] at h2
  subst hs2
  rw [clear_failures_currents]
  exact clear_failures_lookup_none s1 url h1

lemma attempt_step_nodup (s : PMState) (a : Attempt)
    (h : NodupKeys s.proxy_failures) :
    NodupKeys (stepState (attempt_step s a)).proxy_failures := by
  have hall := nodup_get_proxy s a.file a.pick h
  cases hstep : attempt_step s a with
  | poolErr e s1 =>
    have hgp := attempt_step_poolErr_inv s a e s1 hstep
    rw [hgp] at hall
    simpa only [stepState] using hall
  | okStep url v s2 =>
    obtain ⟨s1, hgp, hs2⟩ := attempt_step_ok_inv s a url v s2 hstep
    rw [hgp] at hall
    subst hs2
    simpa only [stepState] using nodup_clear s1 url hall
  | failStep url e s2 =>
    obtain ⟨s1, hgp, hs2⟩ := attempt_step_fail_inv s a url e s2 hstep
    rw [hgp] at hall
    subst hs2
    simpa only [stepState] using nodup_record s1 url hall
  | escape s1 =>
    obtain ⟨url, hgp⟩ := attempt_step_escape_inv s a s1 hstep
    rw [hgp] at hall
    simpa only [stepState] using hall

lemma loopAux_master (fuel : Nat) :
    ∀ (env : Nat → Attempt) (s : PMState) (lastErr : Option AttErr),
      1 ≤ fuel → NodupKeys s.proxy_failures →
      NodupKeys (loopAux env fuel s lastErr).final.proxy_failures ∧
      (loopAux env fuel s lastErr).trace.length ≤ fuel ∧
      (∀ v url, (loopAux env fuel s lastErr).outcome = .success v url →
        (∃ pre, (loopAux env fuel s lastErr).trace = pre ++ [.succeeded url v] ∧
          ∀ rec ∈ pre, isFailedRec rec = true) ∧
        dget? (loopAux env fuel s lastErr).final.proxy_failures
          (derive_key (loopAux env fuel s lastErr).final.current_proxies url) =
          none) ∧
      (∀ le, (loopAux env fuel s lastErr).outcome = .maxRetries le →
        (loopAux env fuel s lastErr).trace.length = fuel ∧
        (∀ rec ∈ (loopAux env fuel s lastErr).trace, isFailedRec rec = true) ∧
        (∃ pre url e, (loopAux env fuel s lastErr).trace = pre ++ [.failed url e] ∧
          le = some e) ∧
        (loopAux env fuel s lastErr).sleeps + 1 = fuel) ∧
      (∀ e1, (loopAux env fuel s lastErr).outcome = .poolError e1 →
        (loopAux env fuel s lastErr).sleeps =
          (loopAux env fuel s lastErr).trace.length ∧
        (loopAux env fuel s lastErr).trace.length < fuel ∧
        ∀ rec ∈ (loopAux env fuel s lastErr).trace, isFailedRec rec = true) ∧
      ((loopAux env fuel s lastErr).outcome = .attrEscape →
        (loopAux env fuel s lastErr).trace.length < fuel) := by
  induction fuel with
  | zero =>
    intro env s lastErr hf hn
    exact absurd hf (by omega)
  | succ f ih =>
    intro env s lastErr hf hn
    have hnodup := attempt_step_nodup s (env 0) hn
    cases hstep : attempt_step s (env 0) with
    | poolErr e s1 =>
      rw [hstep] at hnodup
      have hr : loopAux env (f + 1) s lastErr = ⟨.poolError e, [], 0, s1⟩ := by
        simp [loopAux, hstep]
      rw [hr]
      dsimp only
      refine ⟨by simpa [stepState] using hnodup, by simp, ?_, ?_, ?_, ?_⟩
      · intro v url hout
        exact SearchOutcome.noConfusion hout
      · intro le hout
        exact SearchOutcome.noConfusion hout
      · intro e1 hout
        refine ⟨rfl, by simp, by simp⟩
      · intro hout
        exact SearchOutcome.noConfusion hout
    | okStep url v s2 =>
      rw [hstep] at hnodup
      have hn2 : NodupKeys s2.proxy_failures := by simpa [stepState] using hnodup
      have hlook := attempt_step_ok_lookup s (env 0) url v s2 hn hstep
      have hr : loopAux env (f + 1) s lastErr =
          ⟨.success v url, [.succeeded url v], 0, s2⟩ := by
        simp [loopAux, hstep]
      rw [hr]
      dsimp only
      refine ⟨hn2, by simp, ?_, ?_, ?_, ?_⟩
      · intro v1 url1 hout
        injection hout with h1 h2
        subst h1
        subst h2
        exact ⟨⟨[], by simp, by simp⟩, hlook⟩
      · intro le hout
        exact SearchOutcome.noConfusion hout
      · intro e1 hout
        exact SearchOutcome.noConfusion hout
      · intro hout
        exact SearchOutcome.noConfusion hout
    | escape s1 =>
      rw [hstep] at hnodup
      have hr : loopAux env (f + 1) s lastErr = ⟨.attrEscape, [], 0, s1⟩ := by
        simp [loopAux, hstep]
      rw [hr]
      dsimp only
      refine ⟨by simpa [stepState] using hnodup, by simp, ?_, ?_, ?_, ?_⟩
      · intro v url hout
        exact SearchOutcome.noConfusion hout
      · intro le hout
        exact SearchOutcome.noConfusion hout
      · intro e1 hout
        exact SearchOutcome.noConfusion hout
      · intro hout
        simp
    | failStep url e s2 =>
      rw [hstep] at hnodup
      have hn2 : NodupKeys s2.proxy_failures := by simpa [stepState] using hnodup
      by_cases hf0 : f = 0
      · subst hf0
        have hr : loopAux env 1 s lastErr =
            ⟨.maxRetries (some e), [.failed url e], 0, s2⟩ := by
          simp [loopAux, hstep]
        rw [hr]
        dsimp only
        refine ⟨hn2, by simp, ?_, ?_, ?_, ?_⟩
        · intro v url1 hout
          exact SearchOutcome.noConfusion hout
        · intro le hout
          injection hout with h1
          refine ⟨by simp, ?_, ⟨[], url, e, by simp, h1.symm⟩, by simp⟩
          intro rec hrec
          simp at hrec
          subst hrec
          rfl
        · intro e1 hout
          exact SearchOutcome.noConfusion hout
        · intro hout
          exact SearchOutcome.noConfusion hout
      · have hf1 : 1 ≤ f := Nat.one_le_iff_ne_zero.mpr hf0
        obtain ⟨iha, ihb, ihc, ihd, ihe, ihf⟩ :=
          ih (fun n => env (n + 1)) s2 (some e) hf1 hn2
        have hr : loopAux env (f + 1) s lastErr =
            ⟨(loopAux (fun n => env (n + 1)) f s2 (some e)).outcome,
             .failed url e :: (loopAux (fun n => env (n + 1)) f s2 (some e)).trace,
             (loopAux (fun n => env (n + 1)) f s2 (some e)).sleeps + 1,
             (loopAux (fun n => env (n + 1)) f s2 (some e)).final⟩ := by
          simp [loopAux, hstep, hf0]
        rw [hr]
        dsimp only
        refine ⟨iha, ?_, ?_, ?_, ?_, ?_⟩
        · simp only [List.length_cons]
          omega
        · intro v url1 hout
          obtain ⟨⟨pre, hpre, hprefail⟩, hlook⟩ := ihc v url1 hout
          refine ⟨⟨.failed url e :: pre, by simp [hpre], ?_⟩, hlook⟩
          intro rec hrec
          rcases List.mem_cons.mp hrec with hrec | hrec
          · subst hrec
            rfl
          · exact hprefail rec hrec
        · intro le hout
          obtain ⟨hd1, hd2, ⟨pre, url1, e1, hd3, hd4⟩, hd5⟩ := ihd le hout
          refine ⟨by simp [hd1], ?_, ⟨.failed url e :: pre, url1, e1, by simp [hd3], hd4⟩, by omega⟩
          intro rec hrec
          rcases List.mem_cons.mp hrec with hrec | hrec
          · subst hrec
            rfl
          · exact hd2 rec hrec
        · intro e1 hout
          obtain ⟨he1, he2, he3⟩ := ihe e1 hout
          refine ⟨by simp [he1], by simp; omega, ?_⟩
          intro rec hrec
          rcases List.mem_cons.mp hrec with hrec | hrec
          · subst hrec
            rfl
          · exact he3 rec hrec
        · intro hout
          have hlen := ihf hout
          simp only [List.length_cons]
          omega

/-- C6: `format_proxy_url` maps the four-field form to a credentialed URL
(`1.2.3.4:80:user:pw` to `http://user:pw@1.2.3.4:80`), the two-field form to a
bare URL, passes any line containing `@` through with only the scheme prefix
added, and fails with the invalid-format error for every other colon-field
count (for example `a:b:c`). -/
theorem c6_format_proxy_url :
    format_proxy_url "1.2.3.4:80:user:pw".data =
      .ok "http://user:pw@1.2.3.4:80".data ∧
    format_proxy_url "1.2.3.4:80".data = .ok "http://1.2.3.4:80".data ∧
    format_proxy_url "a:b:c".data = .error (.invalidProxyFormat "a:b:c".data) ∧
    (∀ line : PyStr, '@' ∈ line →
      format_proxy_url line = .ok (httpScheme ++ line)) ∧
    (∀ line : PyStr, '@' ∉ line → (splitOnChar ':' line).length ≠ 4 →
      (splitOnChar ':' line).length ≠ 2 →
      format_proxy_url line = .error (.invalidProxyFormat line)) := by
  refine ⟨by rfl, by rfl, by rfl, ?_, ?_⟩
  · intro line h
    simp [format_proxy_url, h]
  · intro line h h4 h2
    simp only [format_proxy_url, if_neg h]
    rcases hs : splitOnChar ':' line with _ | ⟨a, _ | ⟨b, _ | ⟨c, _ | ⟨d, _ | ⟨e, l⟩⟩⟩⟩⟩ <;>
      simp_all

/-- Witness for C6: the credentialed pass-through branch at the concrete line
`user:pw@host`. -/
theorem c6_format_proxy_url_witness :
    '@' ∈ "user:pw@host".data ∧
    format_proxy_url "user:pw@host".data =
      .ok (httpScheme ++ "user:pw@host".data) :=
  ⟨by decide, c6_format_proxy_url.2.2.2.1 "user:pw@host".data (by decide)⟩

/-- C7: for a response with 2xx status, a body strictly shorter than 1000
characters (in particular one of exactly 999) is classified as the
short-response failure, while a body of exactly 1000 characters is accepted
and handed on. -/
theorem c7_response_length_check :
    (∀ (status : Nat) (m : Markup), 200 ≤ status → status < 300 →
      (m.text.length < 1000 →
        make_request (.response status m) = .error .responseTooShort) ∧
      (1000 ≤ m.text.length → make_request (.response status m) = .ok m)) ∧
    make_request (.response 200 shortMarkup999) = .error .responseTooShort ∧
    make_request (.response 200 okMarkup1000) = .ok okMarkup1000 := by
  refine ⟨?_, ?_, ?_⟩
  · intro status m h1 h2
    have hns : ¬(400 ≤ status ∧ status < 600) := by omega
    constructor
    · intro hlen
      simp [make_request, hns, hlen]
    · intro hlen
      simp [make_request, hns, Nat.not_lt.mpr hlen]
  · simp [make_request, shortMarkup999]
  · simp [make_request, okMarkup1000]

/-- Witness for C7: the general length check applied at status 204 and a
999-character body. -/
theorem c7_response_length_check_witness :
    200 ≤ 204 ∧ 204 < 300 ∧ shortMarkup999.text.length < 1000 ∧
    make_request (.response 204 shortMarkup999) = .error .responseTooShort :=
  ⟨by decide, by decide, by simp [shortMarkup999],
    (c7_response_length_check.1 204 shortMarkup999 (by decide) (by decide)).1
      (by simp [shortMarkup999])⟩

lemma nthD_mem_aux : ∀ (l : List PyStr) (i : Nat), i < l.length → nthD l i ∈ l := by
  intro l
  induction l with
  | nil =>
    intro i h
    simp at h
  | cons x xs ih =>
    intro i h
    cases i with
    | zero => simp [nthD]
    | succ n =>
      exact List.mem_cons_of_mem x (ih n (by simpa using h))

lemma nthD_mem (l : List PyStr) (i : Nat) (h : l ≠ []) :
    nthD l (i % l.length) ∈ l := by
  have hpos : 0 < l.length := List.length_pos.mpr h
  exact nthD_mem_aux l (i % l.length) (Nat.mod_lt _ hpos)

lemma select_proxy_spec (s : PMState) (file : Option (List PyStr)) (pick : Nat) :
    ((load_proxies s file).1 = [] →
      select_proxy s file pick =
        (.error .noProxiesAvailable, (load_proxies s file).2)) ∧
    (∀ e s1, select_proxy s file pick = (.error e, s1) →
      (load_proxies s file).1 = [] ∧ e = .noProxiesAvailable) ∧
    (∀ p s1, select_proxy s file pick = (.ok p, s1) →
      (load_proxies s file).1 ≠ [] ∧
      p ∈ (load_proxies s file).1 ∧
      s1.current_proxies = (load_proxies s file).2.current_proxies ∧
      ((∃ q ∈ (load_proxies s file).1, failCount s q < max_failures) →
        failCount s p < max_failures ∧ s1.proxy_failures = s.proxy_failures) ∧
      ((∀ q ∈ (load_proxies s file).1, max_failures ≤ failCount s q) →
        s1.proxy_failures = [])) := by
  rcases hload : load_proxies s file with ⟨L, SL⟩
  have hstate : SL.proxy_failures = s.proxy_failures := by
    have h1 := load_proxies_table s file
    rw [hload] at h1
    exact h1
  have hfc : ∀ q, dgetD SL.proxy_failures q 0 = failCount s q := by
    intro q
    unfold failCount dgetD
    rw [hstate]
  have hsel : select_proxy s file pick =
      (if L.isEmpty then
        ((Except.error ProxyError.noProxiesAvailable : Except ProxyError PyStr), SL)
       else if (L.filter (fun p => dgetD SL.proxy_failures p 0 < max_failures)).isEmpty then
         (Except.ok (nthD L (pick % L.length)), { SL with proxy_failures := [] })
       else
         (Except.ok (nthD (L.filter (fun p => dgetD SL.proxy_failures p 0 < max_failures))
            (pick % (L.filter (fun p => dgetD SL.proxy_failures p 0 < max_failures)).length)),
          SL)) := by
    unfold select_proxy
    rw [hload]
  dsimp only
  cases hemp : L.isEmpty
  · -- L is not empty
    have hLne : L ≠ [] := by
      intro h
      rw [h] at hemp
      simp at hemp
    rw [hemp] at hsel
    simp only [Bool.false_eq_true, if_false] at hsel
    refine ⟨fun h => absurd h hLne, ?_, ?_⟩
    · intro e s1 h
      cases hw : (L.filter (fun p => dgetD SL.proxy_failures p 0 < max_failures)).isEmpty <;>
        rw [hw] at hsel <;> simp only [Bool.false_eq_true, if_false, if_true] at hsel <;>
        rw [hsel] at h <;> simp at h
    · intro p s1 h
      cases hw : (L.filter (fun p => dgetD SL.proxy_failures p 0 < max_failures)).isEmpty
      · -- working set non-empty: pick comes from the filtered list
        rw [hw] at hsel
        simp only [Bool.false_eq_true, if_false] at hsel
        rw [hsel] at h
        simp only [Prod.mk.injEq, Except.ok.injEq] at h
        obtain ⟨hp, hs1⟩ := h
        have hWne : (L.filter (fun p => dgetD SL.proxy_failures p 0 < max_failures)) ≠ [] := by
          intro hx
          rw [hx] at hw
          simp at hw
        have hmem : p ∈ L.filter (fun p => dgetD SL.proxy_failures p 0 < max_failures) := by
          rw [← hp]
          exact nthD_mem _ pick hWne
        rw [List.mem_filter] at hmem
        obtain ⟨hpL, hplt⟩ := hmem
        have hplt2 : failCount s p < max_failures := by
          rw [← hfc p]
          exact of_decide_eq_true hplt
        subst hs1
        refine ⟨hLne, hpL, rfl, fun _ => ⟨hplt2, hstate⟩, ?_⟩
        intro hall
        exact absurd (hall p hpL) (Nat.not_le.mpr hplt2)
      · -- working set empty: soft reset, pick comes from the raw list
        rw [hw] at hsel
        simp only [if_true] at hsel
        rw [hsel] at h
        simp only [Prod.mk.injEq, Except.ok.injEq] at h
        obtain ⟨hp, hs1⟩ := h
        have hallge : ∀ q ∈ L, max_failures ≤ failCount s q := by
          intro q hq
          have hfe : L.filter (fun p => dgetD SL.proxy_failures p 0 < max_failures) = [] :=
            List.isEmpty_iff.mp hw
          have hnot := List.filter_eq_nil_iff.mp hfe q hq
          have : ¬(dgetD SL.proxy_failures q 0 < max_failures) := by
            simpa using hnot
          rw [hfc q] at this
          omega
        refine ⟨hLne, by rw [← hp]; exact nthD_mem _ pick hLne, by rw [← hs1], ?_, ?_⟩
        · intro hex
          obtain ⟨q, hq, hqlt⟩ := hex
          exact absurd (hallge q hq) (Nat.not_le.mpr hqlt)
        · intro _
          rw [← hs1]
  · -- L is empty
    have hLe : L = [] := List.isEmpty_iff.mp hemp
    rw [hemp] at hsel
    simp only [if_true] at hsel
    refine ⟨fun _ => hsel, ?_, ?_⟩
    · intro e s1 h
      rw [hsel] at h
      simp only [Prod.mk.injEq, Except.error.injEq] at h
      exact ⟨hLe, h.1.symm⟩
    · intro p s1 h
      rw [hsel] at h
      simp at h

/-- C2: every `get_proxy` call reloads the proxy list from the source file; an
empty raw list fails with the pool-empty error (and that is the only selection
error); otherwise the selected record comes from the freshly loaded list, is
below the failure ceiling whenever any loaded record is below the ceiling
(with the health table untouched), and when every loaded record is at or above
the ceiling the whole health table is wiped before selecting among all raw
records. -/
theorem c2_get_proxy_selection (s : PMState) (file : Option (List PyStr))
    (pick : Nat) :
    ((load_proxies s file).1 = [] →
      select_proxy s file pick =
        (.error .noProxiesAvailable, (load_proxies s file).2)) ∧
    (∀ e s1, select_proxy s file pick = (.error e, s1) →
      (load_proxies s file).1 = [] ∧ e = .noProxiesAvailable) ∧
    (∀ p s1, select_proxy s file pick = (.ok p, s1) →
      (load_proxies s file).1 ≠ [] ∧
      p ∈ (load_proxies s file).1 ∧
      s1.current_proxies = (load_proxies s file).2.current_proxies ∧
      ((∃ q ∈ (load_proxies s file).1, failCount s q < max_failures) →
        failCount s p < max_failures ∧ s1.proxy_failures = s.proxy_failures) ∧
      ((∀ q ∈ (load_proxies s file).1, max_failures ≤ failCount s q) →
        s1.proxy_failures = [])) ∧
    (∀ p s1, select_proxy s file pick = (.ok p, s1) →
      get_proxy s file pick = (format_proxy_url p, s1)) := by
  obtain ⟨h1, h2, h3⟩ := select_proxy_spec s file pick
  refine ⟨h1, h2, h3, ?_⟩
  intro p s1 h
  unfold get_proxy
  rw [h]

/-- Witness for C2: a pool of one fresh record; the selection returns it with
the health table untouched. -/
theorem c2_get_proxy_selection_witness :
    select_proxy pmInit (some [goodLine]) 0 = (.ok goodLine, ⟨[], [goodLine]⟩) ∧
    goodLine ∈ (load_proxies pmInit (some [goodLine])).1 :=
  ⟨by rfl,
    (((c2_get_proxy_selection pmInit (some [goodLine]) 0).2.2.1 goodLine
      ⟨[], [goodLine]⟩ (by rfl)).2.1)⟩

/-- C1: `get_first_video_id` performs at most 10 attempts; on the first
attempt whose extraction succeeds it clears the used proxy's failure entry
(the derived key is absent from the final health table) and returns
immediately, every earlier attempt being a failure; and when the run ends in
the terminal error, exactly 10 attempts ran, all failed, and the terminal
error wraps the last attempt's error — a trace of 10 all-failed attempts can
end no other way, so an 11th attempt never occurs. -/
theorem c1_retry_budget (env : Nat → Attempt) (s : PMState)
    (h : NodupKeys s.proxy_failures) :
    (get_first_video_id env s).trace.length ≤ max_attempts ∧
    (∀ v url, (get_first_video_id env s).outcome = .success v url →
      (∃ pre, (get_first_video_id env s).trace = pre ++ [.succeeded url v] ∧
        ∀ rec ∈ pre, isFailedRec rec = true) ∧
      dget? (get_first_video_id env s).final.proxy_failures
        (derive_key (get_first_video_id env s).final.current_proxies url) =
        none) ∧
    (∀ le, (get_first_video_id env s).outcome = .maxRetries le →
      (get_first_video_id env s).trace.length = max_attempts ∧
      (∀ rec ∈ (get_first_video_id env s).trace, isFailedRec rec = true) ∧
      ∃ pre url e, (get_first_video_id env s).trace = pre ++ [.failed url e] ∧
        le = some e) ∧
    (((get_first_video_id env s).trace.length = max_attempts ∧
        (∀ rec ∈ (get_first_video_id env s).trace, isFailedRec rec = true)) →
      ∃ url e pre, (get_first_video_id env s).outcome = .maxRetries (some e) ∧
        (get_first_video_id env s).trace = pre ++ [.failed url e]) := by
  obtain ⟨ma, mb, mc, md, me, mf⟩ :=
    loopAux_master max_attempts env s none (by decide) h
  have hrun : get_first_video_id env s = loopAux env max_attempts s none := rfl
  rw [hrun]
  refine ⟨mb, mc, ?_, ?_⟩
  · intro le hle
    obtain ⟨x1, x2, x3, _⟩ := md le hle
    exact ⟨x1, x2, x3⟩
  · rintro ⟨hlen, hall⟩
    cases ho : (loopAux env max_attempts s none).outcome with
    | success v url =>
      obtain ⟨⟨pre, hpre, _⟩, _⟩ := mc v url ho
      have hmem : AttRec.succeeded url v ∈ (loopAux env max_attempts s none).trace := by
        rw [hpre]
        simp
      have hbad := hall _ hmem
      simp [isFailedRec] at hbad
    | poolError e =>
      obtain ⟨_, hlt, _⟩ := me e ho
      omega
    | attrEscape =>
      have hlt := mf ho
      omega
    | maxRetries le =>
      obtain ⟨_, _, ⟨pre, url, e1, hpre, hle⟩, _⟩ := md le ho
      subst hle
      exact ⟨url, e1, pre, rfl, hpre⟩

/-- Witness for C1: the fresh manager state (empty table, trivially without
duplicate keys) under an environment whose fetches always fail. -/
theorem c1_retry_budget_witness :
    NodupKeys pmInit.proxy_failures ∧
    (get_first_video_id envNet pmInit).trace.length ≤ max_attempts :=
  ⟨by decide, (c1_retry_budget envNet pmInit (by decide)).1⟩

/-- C4 counterexample: with a pool consisting of the single malformed line
`a:b:c`, the very first `get_proxy` call raises the invalid-format
`ProxyError`, which escapes the retry loop (zero attempts consumed) even
though it is neither the pool-empty error nor budget exhaustion — so the
pool-empty condition and budget exhaustion are not the only errors that
escape. -/
theorem c4_error_propagation_cex :
    (get_first_video_id envBadLine pmInit).outcome =
      .poolError (.invalidProxyFormat "a:b:c".data) ∧
    ProxyError.invalidProxyFormat "a:b:c".data ≠ .noProxiesAvailable ∧
    (get_first_video_id envBadLine pmInit).trace.length = 0 :=
  ⟨rfl, by decide, rfl⟩

/-- C4 (amended): every per-attempt error caught by the loop (fetch failure,
short response, extraction miss) is converted into a `record_failure` call on
the proxy just used, incrementing its derived key's count; and any
`ProxyError` escaping from proxy selection — pool-empty or invalid-format —
terminates the run at once, consuming no attempt and adding no delay (every
sleep belongs to one of the earlier failed attempts). -/
theorem c4_error_propagation :
    (∀ (s : PMState) (a : Attempt) (url : PyStr) (e : AttErr) (s2 : PMState),
      attempt_step s a = .failStep url e s2 →
      ∃ s1, get_proxy s a.file a.pick = (.ok url, s1) ∧
        s2 = record_failure s1 url ∧
        failCount s2 (derive_key s1.current_proxies url) =
          failCount s1 (derive_key s1.current_proxies url) + 1) ∧
    (∀ (env : Nat → Attempt) (s : PMState), NodupKeys s.proxy_failures →
      ∀ e1, (get_first_video_id env s).outcome = .poolError e1 →
        (get_first_video_id env s).sleeps =
          (get_first_video_id env s).trace.length ∧
        (get_first_video_id env s).trace.length < max_attempts ∧
        ∀ rec ∈ (get_first_video_id env s).trace, isFailedRec rec = true) := by
  constructor
  · intro s a url e s2 h
    obtain ⟨s1, hgp, hs2⟩ := attempt_step_fail_inv s a url e s2 h
    subst hs2
    exact ⟨s1, hgp, rfl, failCount_record_self s1 url⟩
  · intro env s h e1 ho
    exact (loopAux_master max_attempts env s none (by decide) h).2.2.2.2.1 e1 ho

/-- Witness for C4: one failed attempt against the good one-record pool; the
record's failure count rises from zero to one. -/
theorem c4_error_propagation_witness :
    attempt_step pmInit attNet =
      .failStep goodURL .requestFailed ⟨[(goodLine, 1)], [goodLine]⟩ ∧
    ∃ s1, get_proxy pmInit attNet.file attNet.pick = (.ok goodURL, s1) ∧
      (⟨[(goodLine, 1)], [goodLine]⟩ : PMState) = record_failure s1 goodURL ∧
      failCount ⟨[(goodLine, 1)], [goodLine]⟩
          (derive_key s1.current_proxies goodURL) =
        failCount s1 (derive_key s1.current_proxies goodURL) + 1 :=
  ⟨rfl, c4_error_propagation.1 pmInit attNet goodURL .requestFailed
    ⟨[(goodLine, 1)], [goodLine]⟩ rfl⟩

/-- C3 counterexample: markup with no strategy-1 match whose parsed
`ytInitialData` maps `contents` to a list.  The strategy-2 walk then calls
`.get` on that list, raising an `AttributeError` that the `except` clause
(`JSONDecodeError`, `KeyError`, `TypeError`) does not catch — the extractor
raises instead of falling through to strategy 3, although strategy 3 would
have found `xyz789` in the anchors. -/
theorem c3_extraction_strategies_cex :
    extract_video_id cexMarkup = .attrErrorEscape ∧
    strategy3 cexMarkup.anchors = some "xyz789".data ∧
    extract_video_id cexMarkup ≠ .found (.str "xyz789".data) :=
  ⟨rfl, rfl, fun h => nomatch h⟩

/-- C3 (amended): the three strategies run in fixed order, each only if the
prior found nothing, and the first result is returned without consulting the
later strategies; `VideoNotFound` is raised exactly when all three find
nothing; a strategy-2 JSON-parse failure, or a key-path failure raising
`KeyError` or `TypeError`, falls through to strategy 3 — but a key-path step
that reaches a non-dict value raises an uncaught `AttributeError` instead of
falling through. -/
theorem c3_extraction_strategies (m : Markup) :
    (∀ vid, reSearchClosed vrPattern '\"' m.text = some vid →
      ∀ yt anchors, extract_video_id ⟨m.text, yt, anchors⟩ = .found (.str vid)) ∧
    (∀ v, reSearchClosed vrPattern '\"' m.text = none →
      strategy2 m.ytInitialData = .ok (some v) →
      ∀ anchors, extract_video_id ⟨m.text, m.ytInitialData, anchors⟩ = .found v) ∧
    (reSearchClosed vrPattern '\"' m.text = none →
      (strategy2 m.ytInitialData = .ok none ∨
        strategy2 m.ytInitialData = .error .keyError ∨
        strategy2 m.ytInitialData = .error .typeError) →
      extract_video_id m = fallback3 m.anchors) ∧
    (reSearchClosed vrPattern '\"' m.text = none →
      strategy2 m.ytInitialData = .error .attrError →
      extract_video_id m = .attrErrorEscape) ∧
    (∀ cap, strategy3 m.anchors = some cap →
      fallback3 m.anchors = .found (.str cap)) ∧
    (strategy3 m.anchors = none → fallback3 m.anchors = .notFoundErr) ∧
    extract_video_id exMarkup1 = .found (.str "abc123".data) := by
  refine ⟨?_, ?_, ?_, ?_, ?_, ?_, rfl⟩
  · intro vid h yt anchors
    simp [extract_video_id, h]
  · intro v h1 h2 anchors
    simp [extract_video_id, h1, h2]
  · intro h1 h2
    rcases h2 with h2 | h2 | h2 <;> simp [extract_video_id, h1, h2]
  · intro h1 h2
    simp [extract_video_id, h1, h2]
  · intro cap h
    simp [fallback3, h]
  · intro h
    simp [fallback3, h]

/-- Witness for C3: the concrete strategy-1 markup; strategy 1 finds `abc123`
and the result stands whatever the other two oracle fields hold. -/
theorem c3_extraction_strategies_witness :
    reSearchClosed vrPattern '\"' exMarkup1.text = some "abc123".data ∧
    extract_video_id ⟨exMarkup1.text, some none, ["/watch?v=zzz".data]⟩ =
      .found (.str "abc123".data) :=
  ⟨rfl, (c3_extraction_strategies exMarkup1).1 "abc123".data rfl (some none)
    ["/watch?v=zzz".data]⟩

/-- C5: after five `record_failure` calls with the same wire URL (no
intervening clear), the derived key's count is at least the ceiling of 5;
whenever some loaded record is still below the ceiling, `get_proxy`'s
selection can never return that key; and the count stays at or above the
ceiling under further `record_failure` calls (for any URL) and under
`clear_failures` calls for URLs deriving a different key — only a clear of
this key or a pool-wide soft reset can remove it. -/
theorem c5_failure_ceiling (s : PMState) (url : PyStr) :
    max_failures ≤
      failCount (recordN s url 5) (derive_key s.current_proxies url) ∧
    (∀ (file : Option (List PyStr)) (pick : Nat) (p : PyStr) (s1 : PMState),
      select_proxy (recordN s url 5) file pick = (.ok p, s1) →
      (∃ q ∈ (load_proxies (recordN s url 5) file).1,
        failCount (recordN s url 5) q < max_failures) →
      p ≠ derive_key s.current_proxies url) ∧
    (∀ url2,
      failCount (recordN s url 5) (derive_key s.current_proxies url) ≤
        failCount (record_failure (recordN s url 5) url2)
          (derive_key s.current_proxies url)) ∧
    (∀ url2, derive_key (recordN s url 5).current_proxies url2 ≠
        derive_key s.current_proxies url →
      failCount (clear_failures (recordN s url 5) url2)
          (derive_key s.current_proxies url) =
        failCount (recordN s url 5) (derive_key s.current_proxies url)) := by
  have hcount := failCount_recordN s url 5
  have h5 : max_failures = 5 := rfl
  refine ⟨by omega, ?_, ?_, ?_⟩
  · intro file pick p s1 hsel hex
    obtain ⟨_, _, hspec⟩ := select_proxy_spec (recordN s url 5) file pick
    obtain ⟨_, _, _, himp, _⟩ := hspec p s1 hsel
    obtain ⟨hplt, _⟩ := himp hex
    intro hpk
    rw [hpk] at hplt
    omega
  · intro url2
    exact failCount_record_mono (recordN s url 5) url2 _
  · intro url2 h
    exact failCount_clear_other (recordN s url 5) url2 _ h

/-- Witness for C5: after five failures of the good proxy, a pool holding it
plus a fresh record selects the fresh record, not the banned key. -/
theorem c5_failure_ceiling_witness :
    select_proxy (recordN pmInit goodURL 5)
        (some [goodLine, "5.6.7.8:90".data]) 0 =
      (.ok "5.6.7.8:90".data,
        ⟨[(goodLine, 5)], [goodLine, "5.6.7.8:90".data]⟩) ∧
    (∃ q ∈ (load_proxies (recordN pmInit goodURL 5)
        (some [goodLine, "5.6.7.8:90".data])).1,
      failCount (recordN pmInit goodURL 5) q < max_failures) ∧
    "5.6.7.8:90".data ≠ derive_key pmInit.current_proxies goodURL :=
  ⟨by rfl, by decide,
    (c5_failure_ceiling pmInit goodURL).2.1 (some [goodLine, "5.6.7.8:90".data])
      0 "5.6.7.8:90".data ⟨[(goodLine, 5)], [goodLine, "5.6.7.8:90".data]⟩
      (by rfl) (by decide)⟩

/-- C8: after any number of `record_failure` calls on a URL, one
`clear_failures` call with that URL removes the derived key's entry from the
health table entirely (the lookup returns the absent baseline, not a
decremented count), leaves every other key's entry untouched, and a
`clear_failures` on a key with no entry leaves the whole state unchanged. -/
theorem c8_clear_failures (s : PMState) (url : PyStr) (n : Nat)
    (h : NodupKeys s.proxy_failures) :
    dget? (clear_failures (recordN s url n) url).proxy_failures
      (derive_key s.current_proxies url) = none ∧
    (∀ k1, k1 ≠ derive_key s.current_proxies url →
      dget? (clear_failures (recordN s url n) url).proxy_failures k1 =
        dget? (recordN s url n).proxy_failures k1) ∧
    (dget? s.proxy_failures (derive_key s.current_proxies url) = none →
      clear_failures s url = s) := by
  have hk : derive_key (recordN s url n).current_proxies url =
      derive_key s.current_proxies url := by rw [recordN_currents]
  refine ⟨?_, ?_, ?_⟩
  · have h1 := clear_failures_lookup_none (recordN s url n) url
      (nodup_recordN s url n h)
    rwa [hk] at h1
  · intro k1 hne
    have hne0 : k1 ≠ derive_key (recordN s url n).current_proxies url := by
      rw [hk]
      exact hne
    unfold clear_failures
    dsimp only
    split
    · exact dget?_ddel_ne _ _ _ hne0
    · rfl
  · intro h0
    simp [clear_failures, h0]

/-- Witness for C8: three failures of the good proxy, then a clear: the key is
absent. -/
theorem c8_clear_failures_witness :
    NodupKeys pmInit.proxy_failures ∧
    dget? (clear_failures (recordN pmInit goodURL 3) goodURL).proxy_failures
      (derive_key pmInit.current_proxies goodURL) = none :=
  ⟨by decide, (c8_clear_failures pmInit goodURL 3 (by decide)).1⟩

/-- C9 counterexample: `list_proxies` reloads the proxy file, which overwrites
`self.current_proxies`; with a cached list `a:1` and a file now holding `b:2`
the manager state after the call differs from the state before it, so the
operation is not state-preserving. -/
theorem c9_list_proxies_cex :
    (list_proxies ⟨[], ["a:1".data]⟩ (some ["b:2".data])).2 ≠
      (⟨[], ["a:1".data]⟩ : PMState) := by decide

/-- C9 (amended): `list_proxies` leaves the health table unchanged and, when
the file is absent, the whole state unchanged; but it reloads the file,
refreshing `current_proxies` exactly as `load_proxies` does.  Each reported
entry carries a loaded record, its current failure count, and the status
`banned` exactly when that count is at least the ceiling of 5 (else
`active`). -/
theorem c9_list_proxies (s : PMState) (file : Option (List PyStr)) :
    (list_proxies s file).2.proxy_failures = s.proxy_failures ∧
    (file = none → (list_proxies s file).2 = s) ∧
    (list_proxies s file).2 = (load_proxies s file).2 ∧
    (∀ entry ∈ (list_proxies s file).1,
      entry.1 ∈ (load_proxies s file).1 ∧
      entry.2.1 = failCount s entry.1 ∧
      (entry.2.2 = "banned".data ↔ max_failures ≤ entry.2.1) ∧
      (entry.2.2 = "banned".data ∨ entry.2.2 = "active".data)) := by
  have hl : (list_proxies s file).2 = (load_proxies s file).2 := rfl
  refine ⟨by rw [hl]; exact load_proxies_table s file, ?_, hl, ?_⟩
  · intro hf
    subst hf
    rfl
  · intro entry hmem
    have hm2 : entry ∈ (load_proxies s file).1.map (fun p =>
        (p, dgetD (load_proxies s file).2.proxy_failures p 0,
          if dgetD (load_proxies s file).2.proxy_failures p 0 ≥ max_failures
          then "banned".data else "active".data)) := hmem
    rw [List.mem_map] at hm2
    obtain ⟨p, hp, hpe⟩ := hm2
    have hcnt : dgetD (load_proxies s file).2.proxy_failures p 0 =
        failCount s p := by
      unfold failCount dgetD
      rw [load_proxies_table]
    subst hpe
    refine ⟨hp, hcnt, ?_, ?_⟩
    · dsimp only
      by_cases hge : max_failures ≤ dgetD (load_proxies s file).2.proxy_failures p 0
      · simp [hge]
      · simp [hge, show ("active".data : PyStr) ≠ "banned".data by decide]
    · dsimp only
      by_cases hge : max_failures ≤ dgetD (load_proxies s file).2.proxy_failures p 0
      · simp [hge]
      · simp [hge]

/-- Witness for C9: a state with the good proxy at the ceiling; the diagnostic
view reports it as banned. -/
theorem c9_list_proxies_witness :
    (goodLine, 5, "banned".data) ∈
      (list_proxies ⟨[(goodLine, 5)], []⟩ (some [goodLine])).1 ∧
    ((goodLine, 5, "banned".data).2.2 = "banned".data ↔
      max_failures ≤ (goodLine, 5, "banned".data).2.1) :=
  ⟨by decide,
    ((c9_list_proxies ⟨[(goodLine, 5)], []⟩ (some [goodLine])).2.2.2 _
      (by decide)).2.2.1⟩

lemma find?_append_first (xs : List PyStr) (p : PyStr) (ys : List PyStr)
    (pred : PyStr → Bool) (hxs : ∀ q ∈ xs, pred q = false)
    (hp : pred p = true) :
    List.find? pred (xs ++ p :: ys) = some p := by
  induction xs with
  | nil => simp [List.find?_cons, hp]
  | cons x xs ih =>
    have hx : pred x = false := hxs x (by simp)
    have ih2 := ih (fun q hq => hxs q (by simp [hq]))
    simpa [List.find?_cons, hx] using ih2

/-- C10: for a credentialed wire URL (containing `@`), the bookkeeping key is
the host fragment between the first `@` and the following `:`, replaced by the
first currently loaded raw record containing that fragment as a substring, or
kept as the bare fragment when no record matches; consequently, when several
loaded records share the host fragment, `record_failure` always increments the
earliest matching record in load order and leaves the later ones untouched. -/
theorem c10_substring_attribution (current : List PyStr) (url : PyStr)
    (h : '@' ∈ url) :
    (∀ xs p ys, current = xs ++ p :: ys →
      (∀ q ∈ xs, isSub (extract_host url) q = false) →
      isSub (extract_host url) p = true →
      derive_key current url = p) ∧
    ((∀ q ∈ current, isSub (extract_host url) q = false) →
      derive_key current url = extract_host url) ∧
    (∀ (s : PMState) xs p ys, s.current_proxies = current →
      current = xs ++ p :: ys →
      (∀ q ∈ xs, isSub (extract_host url) q = false) →
      isSub (extract_host url) p = true →
      failCount (record_failure s url) p = failCount s p + 1 ∧
      (∀ p2, p2 ≠ p → dget? (record_failure s url).proxy_failures p2 =
        dget? s.proxy_failures p2)) := by
  have hkey : ∀ xs p ys, current = xs ++ p :: ys →
      (∀ q ∈ xs, isSub (extract_host url) q = false) →
      isSub (extract_host url) p = true →
      derive_key current url = p := by
    intro xs p ys hcur hxs hp
    subst hcur
    simp only [derive_key, if_pos h]
    rw [find?_append_first xs p ys _ hxs hp]
  refine ⟨hkey, ?_, ?_⟩
  · intro hall
    simp only [derive_key, if_pos h]
    have hfind : current.find? (fun p => isSub (extract_host url) p) = none := by
      rw [List.find?_eq_none]
      intro x hx
      simp [hall x hx]
    rw [hfind]
  · intro s xs p ys hs hcur hxs hp
    have hk : derive_key s.current_proxies url = p := by
      rw [hs]
      exact hkey xs p ys hcur hxs hp
    constructor
    · have h1 := failCount_record_self s url
      rwa [hk] at h1
    · intro p2 hne
      have hne2 : p2 ≠ derive_key s.current_proxies url := by
        rw [hk]
        exact hne
      simp only [record_failure]
      exact dget?_dset_ne _ _ _ _ hne2

/-- Witness for C10: two loaded records share the host fragment `1.2.3.4`;
the key derived from the wire URL of the second-listed variant is still the
first matching record in load order. -/
theorem c10_substring_attribution_witness :
    '@' ∈ "http://u:p@1.2.3.4:80".data ∧
    derive_key ["zzz".data, "1.2.3.4:80:u:p".data, "1.2.3.4:81:u:p".data]
      "http://u:p@1.2.3.4:80".data = "1.2.3.4:80:u:p".data :=
  ⟨by decide,
    (c10_substring_attribution
      ["zzz".data, "1.2.3.4:80:u:p".data, "1.2.3.4:81:u:p".data]
      "http://u:p@1.2.3.4:80".data (by decide)).1
      ["zzz".data] "1.2.3.4:80:u:p".data ["1.2.3.4:81:u:p".data]
      rfl (by decide) (by decide)⟩
